import Mathlib

/-!
Shallow embedding of `python_to_sql_converter.py`: a pandas-style
Python-expression to SQL converter built from six regular-expression
templates tried in a fixed order, plus a condition normalizer.

The Python regexes are embedded as explicit matchers over `List Char`.
Every `\s*` / `\w+` in the source regexes is followed by a regex element
that can never match a whitespace / word character, so greedy maximal munch
(`dropWhile` / `takeWhile`) is an exact implementation of the backtracking
semantics at those points; the only genuinely backtracking piece, the
greedy `(.+)` of recognizers 3 and 4, is implemented by trying every
`]`-split of the remaining input from the longest candidate down.
Python's `\w` and `\s` are modelled by their ASCII parts (every input in
the program's documented domain is ASCII).
-/

/-- ASCII part of Python's `\s` and of the `str.strip` whitespace set. -/
def isSpaceChar (c : Char) : Bool :=
  c = ' ' || c = '\t' || c = '\n' || c = '\r' || c = '\x0b' || c = '\x0c'

/-- ASCII part of Python's `\w`: letters, digits, underscore. -/
def isWordChar (c : Char) : Bool := c.isAlphanum || c = '_'

/-- Parenthesis characters, for stating that the condition normalizer
passes parentheses through verbatim. -/
def isParenChar (c : Char) : Bool := c = '(' || c = ')'

/-- Python `str.strip()`: remove leading and trailing whitespace. -/
def pstrip (cs : List Char) : List Char :=
  ((cs.dropWhile isSpaceChar).reverse.dropWhile isSpaceChar).reverse

/-- Match a literal run of characters at the front, returning the rest. -/
def lit : List Char → List Char → Option (List Char)
  | [], cs => some cs
  | _ :: _, [] => none
  | l :: ls, c :: cs => if c = l then lit ls cs else none

/-- Match one expected character at the front. -/
def expectChar (c : Char) : List Char → Option (List Char)
  | [] => none
  | d :: r => if d = c then some r else none

/-- The character class `['\x22]` of the source regexes: one single or
double quote (the opening and closing quote are matched independently). -/
def quoteM : List Char → Option (List Char)
  | [] => none
  | c :: r => if c = '\'' || c = '"' then some r else none

/-- Greedy `(\w+)`: the maximal nonempty run of word characters, returned
together with the rest. -/
def wordPlus (cs : List Char) : Option (List Char × List Char) :=
  let w := cs.takeWhile isWordChar
  if w.isEmpty then none else some (w, cs.dropWhile isWordChar)

/-- `\s*` by maximal munch (exact at every use site: the regex element
following each `\s*` never matches a whitespace character). -/
def spacesDrop (cs : List Char) : List Char := cs.dropWhile isSpaceChar

/-- `\s*$` applied to a stripped input (Python's `$` also accepts a final
newline, which the preceding `\s*` subsumes). -/
def endMatch (cs : List Char) : Bool := (spacesDrop cs).isEmpty

theorem lit_sound (l : List Char) :
    ∀ cs r, lit l cs = some r → cs = l ++ r := by
  induction l with
  | nil =>
    intro cs r h
    simp only [lit, Option.some.injEq] at h
    simp [h]
  | cons a as ih =>
    intro cs r h
    cases cs with
    | nil => simp [lit] at h
    | cons c cs' =>
      by_cases hca : c = a
      · subst hca
        simp only [lit, if_pos rfl] at h
        simpa using ih cs' r h
      · simp [lit, hca] at h

theorem lit_append (l : List Char) :
    ∀ cs r extra, lit l cs = some r → lit l (cs ++ extra) = some (r ++ extra) := by
  induction l with
  | nil =>
    intro cs r extra h
    simp only [lit, Option.some.injEq] at h
    simp [lit, h]
  | cons a as ih =>
    intro cs r extra h
    cases cs with
    | nil => simp [lit] at h
    | cons c cs' =>
      by_cases hca : c = a
      · subst hca
        simp only [lit, if_pos rfl] at h ⊢
        exact ih cs' r extra h
      · simp [lit, hca] at h

theorem expectChar_sound {c : Char} {cs r : List Char}
    (h : expectChar c cs = some r) : cs = c :: r := by
  cases cs with
  | nil => simp [expectChar] at h
  | cons d cs' =>
    by_cases hdc : d = c
    · subst hdc
      simp only [expectChar, if_pos, Option.some.injEq] at h
      simp [h]
    · simp [expectChar, hdc] at h

theorem expectChar_of_cons {c : Char} {r : List Char} :
    expectChar c (c :: r) = some r := by
  simp [expectChar]

theorem quoteM_sound {cs r : List Char} (h : quoteM cs = some r) :
    ∃ q, cs = q :: r ∧ (q = '\'' ∨ q = '"') := by
  cases cs with
  | nil => simp [quoteM] at h
  | cons c cs' =>
    by_cases hc : c = '\'' ∨ c = '"'
    · refine ⟨c, ?_, hc⟩
      have hb : (c = '\'' || c = '"') = true := by
        rcases hc with h1 | h1 <;> simp [h1]
      simp only [quoteM, hb, if_pos, Option.some.injEq] at h
      simp [h]
    · have hb : (c = '\'' || c = '"') = false := by
        push_neg at hc
        simp [hc.1, hc.2]
      simp [quoteM, hb] at h

theorem quoteM_append {cs r extra : List Char} (h : quoteM cs = some r) :
    quoteM (cs ++ extra) = some (r ++ extra) := by
  obtain ⟨q, rfl, hq⟩ := quoteM_sound h
  have hb : (q = '\'' || q = '"') = true := by
    rcases hq with h1 | h1 <;> simp [h1]
  simp [quoteM, hb]

theorem wordPlus_sound {cs w r : List Char} (h : wordPlus cs = some (w, r)) :
    cs = w ++ r ∧ w ≠ [] ∧ (∀ c ∈ w, isWordChar c = true) ∧
      r = cs.dropWhile isWordChar ∧ w = cs.takeWhile isWordChar := by
  simp only [wordPlus] at h
  by_cases hw : (cs.takeWhile isWordChar).isEmpty
  · simp [hw] at h
  · simp only [hw, Bool.false_eq_true, if_false, Option.some.injEq, Prod.mk.injEq] at h
    obtain ⟨hw1, hr⟩ := h
    subst hw1; subst hr
    refine ⟨(List.takeWhile_append_dropWhile isWordChar cs).symm, ?_, ?_, rfl, rfl⟩
    · intro hnil; rw [hnil] at hw; simp at hw
    · intro c hc; exact List.mem_takeWhile_imp hc

theorem dropWhile_cons_of_eq {p : Char → Bool} :
    ∀ {cs : List Char} {c : Char} {r : List Char},
      cs.dropWhile p = c :: r → p c = false := by
  intro cs
  induction cs with
  | nil => intro c r h; simp [List.dropWhile] at h
  | cons a t ih =>
    intro c r h
    rw [List.dropWhile_cons] at h
    by_cases hpa : p a
    · rw [if_pos hpa] at h; exact ih h
    · rw [if_neg hpa] at h
      obtain ⟨rfl, -⟩ := List.cons.inj h
      simpa using hpa

theorem dropWhile_append_cons {p : Char → Bool} :
    ∀ {cs : List Char} {c : Char} {r : List Char} (extra : List Char),
      cs.dropWhile p = c :: r → (cs ++ extra).dropWhile p = c :: (r ++ extra) := by
  intro cs
  induction cs with
  | nil => intro c r extra h; simp [List.dropWhile] at h
  | cons a t ih =>
    intro c r extra h
    rw [List.dropWhile_cons] at h
    rw [List.cons_append, List.dropWhile_cons]
    by_cases hpa : p a
    · rw [if_pos hpa] at h ⊢; exact ih extra h
    · rw [if_neg hpa] at h ⊢
      obtain ⟨rfl, rfl⟩ := List.cons.inj h
      rfl

theorem takeWhile_append_of_drop_cons {p : Char → Bool} :
    ∀ {cs : List Char} {c : Char} {r : List Char} (extra : List Char),
      cs.dropWhile p = c :: r → (cs ++ extra).takeWhile p = cs.takeWhile p := by
  intro cs
  induction cs with
  | nil => intro c r extra h; simp [List.dropWhile] at h
  | cons a t ih =>
    intro c r extra h
    rw [List.dropWhile_cons] at h
    rw [List.cons_append, List.takeWhile_cons, List.takeWhile_cons]
    by_cases hpa : p a
    · rw [if_pos hpa] at h
      rw [if_pos hpa, if_pos hpa, ih extra h]
    · rw [if_neg hpa] at h
      rw [if_neg hpa, if_neg hpa]

theorem spacesDrop_append_cons {cs : List Char} {c : Char} {r : List Char}
    (extra : List Char) (h : spacesDrop cs = c :: r) :
    spacesDrop (cs ++ extra) = c :: (r ++ extra) :=
  dropWhile_append_cons extra h

theorem expectChar_spaces_append {a : Char} {cs r extra : List Char}
    (h : expectChar a (spacesDrop cs) = some r) :
    expectChar a (spacesDrop (cs ++ extra)) = some (r ++ extra)  := by
  have hs := expectChar_sound h
  rw [spacesDrop_append_cons extra hs]
  exact expectChar_of_cons

theorem quoteM_spaces_append {cs r extra : List Char}
    (h : quoteM (spacesDrop cs) = some r) :
    quoteM (spacesDrop (cs ++ extra)) = some (r ++ extra) := by
  obtain ⟨q, hq, hqq⟩ := quoteM_sound h
  rw [spacesDrop_append_cons extra hq]
  have hb : (q = '\'' || q = '"') = true := by
    rcases hqq with h1 | h1 <;> simp [h1]
  simp [quoteM, hb]

theorem lit_spaces_append {l cs r extra : List Char} (hl : l ≠ [])
    (h : lit l (spacesDrop cs) = some r) :
    lit l (spacesDrop (cs ++ extra)) = some (r ++ extra) := by
  have hs := lit_sound l (spacesDrop cs) r h
  cases l with
  | nil => exact absurd rfl hl
  | cons a as =>
    rw [List.cons_append] at hs
    rw [spacesDrop_append_cons extra hs]
    have := lit_append (a :: as) (spacesDrop cs) r extra h
    rw [hs] at this
    exact this

theorem wordPlus_append {cs w r extra : List Char}
    (h : wordPlus cs = some (w, r)) (hr : r ≠ []) :
    wordPlus (cs ++ extra) = some (w, r ++ extra) := by
  obtain ⟨-, hw, -, hrd, hwt⟩ := wordPlus_sound h
  cases hrc : r with
  | nil => exact absurd hrc hr
  | cons c r' =>
    rw [hrc] at hrd
    have hd : cs.dropWhile isWordChar = c :: r' := hrd.symm
    have ht := takeWhile_append_of_drop_cons (p := isWordChar) extra hd
    have hd2 := dropWhile_append_cons (p := isWordChar) extra hd
    simp only [wordPlus, ht, hd2, ← hwt]
    have : ¬ w.isEmpty := by
      cases w with
      | nil => exact absurd rfl hw
      | cons x xs => simp
    simp only [Bool.not_eq_true] at this
    rw [this]
    simp [hrc]

theorem wordPlus_nil : wordPlus ([] : List Char) = none := by
  simp [wordPlus]

theorem spacesDrop_nil : spacesDrop ([] : List Char) = [] := rfl

/-- Recognizer 1 of `python_to_sql`, the groupby pattern
`re.match(r"df\.groupby\(\s*['\x22](\w+)['\x22]\s*\)\s*\[\s*['\x22](\w+)['\x22]\s*\]\s*\.\s*(\w+)\s*\(\s*\)", code)`,
returning the captures `(gcol, target_col, func)`.  The regex has no end
anchor, so trailing input after the final `)` is ignored. -/
def matchGroupby (cs : List Char) : Option (List Char × List Char × List Char) :=
  (lit "df.groupby(".toList cs).bind fun r1 =>
  (quoteM (spacesDrop r1)).bind fun r2 =>
  (wordPlus r2).bind fun (gcol, r3) =>
  (quoteM r3).bind fun r4 =>
  (expectChar ')' (spacesDrop r4)).bind fun r5 =>
  (expectChar '[' (spacesDrop r5)).bind fun r6 =>
  (quoteM (spacesDrop r6)).bind fun r7 =>
  (wordPlus r7).bind fun (tcol, r8) =>
  (quoteM r8).bind fun r9 =>
  (expectChar ']' (spacesDrop r9)).bind fun r10 =>
  (expectChar '.' (spacesDrop r10)).bind fun r11 =>
  (wordPlus (spacesDrop r11)).bind fun (func, r12) =>
  (expectChar '(' (spacesDrop r12)).bind fun r13 =>
  (expectChar ')' (spacesDrop r13)).bind fun _ =>
  some (gcol, tcol, func)

/-- The optional group of recognizer 2:
`(?:\s*,\s*ascending\s*=\s*(True|False))?`, returning the capture and the
rest on success. -/
def sortAscTail (cs : List Char) : Option (List Char × List Char) :=
  (expectChar ',' (spacesDrop cs)).bind fun r1 =>
  (lit "ascending".toList (spacesDrop r1)).bind fun r2 =>
  (expectChar '=' (spacesDrop r2)).bind fun r3 =>
  match lit "True".toList (spacesDrop r3) with
  | some r4 => some ("True".toList, r4)
  | none =>
    match lit "False".toList (spacesDrop r3) with
    | some r4 => some ("False".toList, r4)
    | none => none

/-- Recognizer 2 of `python_to_sql`, the sort pattern
`re.match(r"df\.sort_values\(\s*['\x22](\w+)['\x22](?:\s*,\s*ascending\s*=\s*(True|False))?\s*\)", code)`,
returning the captures `(col, asc)` where `asc` is `none` when the optional
group did not participate.  As in Python, the greedy optional group is
tried first and dropped on failure of the remainder. -/
def matchSortValues (cs : List Char) : Option (List Char × Option (List Char)) :=
  (lit "df.sort_values(".toList cs).bind fun r1 =>
  (quoteM (spacesDrop r1)).bind fun r2 =>
  (wordPlus r2).bind fun (col, r3) =>
  (quoteM r3).bind fun r4 =>
  match sortAscTail r4 with
  | some (asc, r5) =>
    (match expectChar ')' (spacesDrop r5) with
     | some _ => some (col, some asc)
     | none =>
       match expectChar ')' (spacesDrop r4) with
       | some _ => some (col, none)
       | none => none)
  | none =>
    match expectChar ')' (spacesDrop r4) with
    | some _ => some (col, none)
    | none => none

/-- All decompositions `cs = P ++ ']' :: rest` with `P` newline-free, in
order of increasing position of the `]`; these are the candidate matches of
`(.+)\]` (`.` does not match a newline). -/
def condSplits : List Char → List (List Char × List Char)
  | [] => []
  | c :: rest =>
    (if c = ']' then [(([] : List Char), rest)] else []) ++
      (if c = '\n' then [] else (condSplits rest).map fun p => (c :: p.1, p.2))

/-- The part of recognizer 3 after the captured condition:
`\s*\[\s*['\x22](\w+)['\x22]\s*\]\s*\.\s*(\w+)\s*\(\s*\)`, returning the
captures `(target_col, func)`. -/
def filterAggTail (cs : List Char) : Option (List Char × List Char) :=
  (expectChar '[' (spacesDrop cs)).bind fun r1 =>
  (quoteM (spacesDrop r1)).bind fun r2 =>
  (wordPlus r2).bind fun (tcol, r3) =>
  (quoteM r3).bind fun r4 =>
  (expectChar ']' (spacesDrop r4)).bind fun r5 =>
  (expectChar '.' (spacesDrop r5)).bind fun r6 =>
  (wordPlus (spacesDrop r6)).bind fun (func, r7) =>
  (expectChar '(' (spacesDrop r7)).bind fun r8 =>
  (expectChar ')' (spacesDrop r8)).bind fun _ =>
  some (tcol, func)

/-- Recognizer 3 of `python_to_sql`, the chained filter-plus-aggregate
pattern
`re.match(r"df\[(.+)\]\s*\[\s*['\x22](\w+)['\x22]\s*\]\s*\.\s*(\w+)\s*\(\s*\)", code)`,
returning `(cond_raw, target_col, func)`.  The greedy `(.+)` is realized by
trying the `]`-splits from the longest condition down, exactly the
backtracking order of the Python engine. -/
def matchFilterAgg (cs : List Char) : Option (List Char × List Char × List Char) :=
  (lit "df[".toList cs).bind fun r =>
  (condSplits r).reverse.findSome? fun p =>
    if p.1.isEmpty then none
    else
      match filterAggTail p.2 with
      | none => none
      | some (tcol, func) => some (p.1, tcol, func)

/-- Recognizer 4 of `python_to_sql`, the filter-only pattern
`re.match(r"df\[(.+)\]\s*$", code)`, returning the captured condition. -/
def matchFilter (cs : List Char) : Option (List Char) :=
  (lit "df[".toList cs).bind fun r =>
  (condSplits r).reverse.findSome? fun p =>
    if p.1.isEmpty || !(endMatch p.2) then none else some p.1

/-- Recognizer 5 of `python_to_sql`, the column-aggregate pattern
`re.match(r"df\[['\x22](\w+)['\x22]\]\s*\.\s*(\w+)\s*\(\s*\)", code)`,
returning `(col, func)`.  Note there is no `\s*` inside the brackets. -/
def matchColAgg (cs : List Char) : Option (List Char × List Char) :=
  (lit "df[".toList cs).bind fun r1 =>
  (quoteM r1).bind fun r2 =>
  (wordPlus r2).bind fun (col, r3) =>
  (quoteM r3).bind fun r4 =>
  (expectChar ']' r4).bind fun r5 =>
  (expectChar '.' (spacesDrop r5)).bind fun r6 =>
  (wordPlus (spacesDrop r6)).bind fun (func, r7) =>
  (expectChar '(' (spacesDrop r7)).bind fun r8 =>
  (expectChar ')' (spacesDrop r8)).bind fun _ =>
  some (col, func)

/-- Recognizer 6 of `python_to_sql`, the plain column select pattern
`re.match(r"df\[['\x22](\w+)['\x22]\]\s*$", code)`, returning the captured
column. -/
def matchColSelect (cs : List Char) : Option (List Char) :=
  (lit "df[".toList cs).bind fun r1 =>
  (quoteM r1).bind fun r2 =>
  (wordPlus r2).bind fun (col, r3) =>
  (quoteM r3).bind fun r4 =>
  (expectChar ']' r4).bind fun r5 =>
  if endMatch r5 then some col else none

/-- One match of the normalizer's substitution regex
`df\[['\x22](\w+)['\x22]\]` at the current position, returning the captured
field name and the rest. -/
def trySeriesRef (cs : List Char) : Option (List Char × List Char) :=
  (lit "df[".toList cs).bind fun r1 =>
  (quoteM r1).bind fun r2 =>
  (wordPlus r2).bind fun (w, r3) =>
  (quoteM r3).bind fun r4 =>
  (expectChar ']' r4).bind fun r5 =>
  some (w, r5)

theorem trySeriesRef_sound {cs w r : List Char}
    (h : trySeriesRef cs = some (w, r)) :
    ∃ q1 q2, (q1 = '\'' ∨ q1 = '"') ∧ (q2 = '\'' ∨ q2 = '"') ∧ w ≠ [] ∧
      (∀ c ∈ w, isWordChar c = true) ∧
      cs = "df[".toList ++ q1 :: (w ++ q2 :: ']' :: r) := by
  simp only [trySeriesRef, Option.bind_eq_some] at h
  obtain ⟨r1, h1, r2, h2, pr, h3, r4, h4, r5, h5, h6⟩ := h
  obtain ⟨w3, r3⟩ := pr
  simp only [Option.some.injEq, Prod.mk.injEq] at h6
  obtain ⟨rfl, rfl⟩ := h6
  obtain ⟨q1, rfl, hq1⟩ := quoteM_sound h2
  obtain ⟨hr2, hw, hwc, -, -⟩ := wordPlus_sound h3
  obtain ⟨q2, hq2e, hq2⟩ := quoteM_sound h4
  have h5' := expectChar_sound h5
  refine ⟨q1, q2, hq1, hq2, hw, hwc, ?_⟩
  dsimp only at hq2e
  rw [lit_sound _ _ _ h1, hr2, hq2e, h5']

theorem trySeriesRef_length {cs : List Char} {p : List Char × List Char}
    (h : trySeriesRef cs = some p) : p.2.length < cs.length := by
  obtain ⟨w, r⟩ := p
  obtain ⟨q1, q2, -, -, hw, -, hcs⟩ := trySeriesRef_sound h
  rw [hcs]
  simp only [List.length_append, List.length_cons]
  have : 1 ≤ w.length := by
    cases w with
    | nil => exact absurd rfl hw
    | cons x xs => simp
  rw [show ("df[".toList : List Char).length = 3 from rfl]
  omega

/-- The recursion of `re.sub(r"df\[['\x22](\w+)['\x22]\]", r"\1", condition)`,
with an explicit fuel that keeps the recursion structural (the kernel can
then evaluate it); every match consumes at least one character, so an
initial fuel equal to the input length is never exhausted. -/
def subSeriesRefsFuel : Nat → List Char → List Char
  | _, [] => []
  | 0, cs => cs
  | fuel + 1, c :: rest =>
    match trySeriesRef (c :: rest) with
    | some p => p.1 ++ subSeriesRefsFuel fuel p.2
    | none => c :: subSeriesRefsFuel fuel rest

/-- `re.sub(r"df\[['\x22](\w+)['\x22]\]", r"\1", condition)`: scan left to
right, replacing each non-overlapping match by its captured field name. -/
def subSeriesRefs (cs : List Char) : List Char := subSeriesRefsFuel cs.length cs

theorem lit_rest_length {pat cs r : List Char} (hp : pat ≠ [])
    (h : lit pat cs = some r) : r.length < cs.length := by
  have h2 := congrArg List.length (lit_sound _ _ _ h)
  have hpat : 1 ≤ pat.length := by
    cases pat with
    | nil => exact absurd rfl hp
    | cons x xs => simp
  simp only [List.length_append] at h2
  omega

/-- The recursion of Python `str.replace(pat, rep)`, with an explicit fuel
that keeps the recursion structural; every replaced or skipped position
consumes at least one character, so an initial fuel equal to the input
length is never exhausted (`pat` is nonempty at every use site; an empty
`pat` is treated as matching nothing). -/
def replaceSubFuel (pat rep : List Char) : Nat → List Char → List Char
  | _, [] => []
  | 0, cs => cs
  | fuel + 1, c :: cs' =>
    if pat.isEmpty then c :: replaceSubFuel pat rep fuel cs'
    else
      match lit pat (c :: cs') with
      | some r => rep ++ replaceSubFuel pat rep fuel r
      | none => c :: replaceSubFuel pat rep fuel cs'

/-- Python `str.replace(pat, rep)`: replace all non-overlapping occurrences
of `pat`, scanning left to right. -/
def replaceSub (pat rep cs : List Char) : List Char :=
  replaceSubFuel pat rep cs.length cs

/-- The aggregate-function alias table `FUNC_MAP` of the source. -/
def FUNC_MAP : List (String × String) :=
  [("mean", "AVG"), ("sum", "SUM"), ("count", "COUNT"),
   ("min", "MIN"), ("max", "MAX"), ("median", "MEDIAN")]

/-- Python `str.upper()` (ASCII part, which covers every `\w+` capture the
program handles). -/
def pyUpper (s : String) : String := String.mk (s.toList.map Char.toUpper)

/-- `FUNC_MAP.get(func, func.upper())`: alias-table lookup with uppercase
passthrough for missing keys. -/
def funcMapGet (func : String) : String :=
  match FUNC_MAP.lookup func with
  | some v => v
  | none => pyUpper func

/-- `_clean_quotes` of the source: strip whitespace, then remove the first
and last character when the result both starts and ends with `'` or both
starts and ends with `\x22`. -/
def _clean_quotes (s : String) : String :=
  let t := pstrip s.toList
  if (t.head? == some '\'' && t.getLast? == some '\'')
      || (t.head? == some '"' && t.getLast? == some '"') then
    String.mk ((t.drop 1).dropLast)
  else
    String.mk t

/-- `_replace_series_refs` of the source: the condition normalizer.  In
this order: `re.sub` of the series-reference regex, then the textual
replacements `==` to `=`, `&` to `AND`, `|` to `OR`, and removal of every
occurrence of `df.`. -/
def _replace_series_refs (condition : String) : String :=
  let c1 := subSeriesRefs condition.toList
  let c2 := replaceSub "==".toList "=".toList c1
  let c3 := replaceSub "&".toList "AND".toList c2
  let c4 := replaceSub "|".toList "OR".toList c3
  let c5 := replaceSub "df.".toList "".toList c4
  String.mk c5

/-- `python_to_sql` of the source: strip the input, try the six
recognizers in order, build the SQL string from the first match, and fall
back to the sentinel error string. -/
def python_to_sql (python_code : String) (table_name : String := "employees") : String :=
  let code := pstrip python_code.toList
  match matchGroupby code with
  | some (gcol, tcol, func) =>
    "SELECT " ++ String.mk gcol ++ ", " ++ funcMapGet (String.mk func) ++ "(" ++
      String.mk tcol ++ ") FROM " ++ table_name ++ " GROUP BY " ++ String.mk gcol ++ ";"
  | none =>
  match matchSortValues code with
  | some (col, asc) =>
    "SELECT * FROM " ++ table_name ++ " ORDER BY " ++ String.mk col ++ " " ++
      (if asc == some "False".toList then "DESC" else "ASC") ++ ";"
  | none =>
  match matchFilterAgg code with
  | some (cond_raw, tcol, func) =>
    "SELECT " ++ funcMapGet (String.mk func) ++ "(" ++ String.mk tcol ++ ") FROM " ++
      table_name ++ " WHERE " ++ _replace_series_refs (String.mk cond_raw) ++ ";"
  | none =>
  match matchFilter code with
  | some cond_raw =>
    "SELECT * FROM " ++ table_name ++ " WHERE " ++ _replace_series_refs (String.mk cond_raw) ++ ";"
  | none =>
  match matchColAgg code with
  | some (col, func) =>
    "SELECT " ++ funcMapGet (String.mk func) ++ "(" ++ String.mk col ++ ") FROM " ++
      table_name ++ ";"
  | none =>
  match matchColSelect code with
  | some col => "SELECT " ++ String.mk col ++ " FROM " ++ table_name ++ ";"
  | none => "ERROR: Unsupported or unrecognized Python pattern. Please try a simpler expression."

theorem python_to_sql_groupby {python_code table_name : String}
    {gcol tcol func : List Char}
    (h : matchGroupby (pstrip python_code.toList) = some (gcol, tcol, func)) :
    python_to_sql python_code table_name =
      "SELECT " ++ String.mk gcol ++ ", " ++ funcMapGet (String.mk func) ++ "(" ++
        String.mk tcol ++ ") FROM " ++ table_name ++ " GROUP BY " ++ String.mk gcol ++ ";" := by
  have h' : matchGroupby (pstrip python_code.data) = some (gcol, tcol, func) := h
  simp [python_to_sql, h']

theorem python_to_sql_sort {python_code table_name : String}
    {col : List Char} {asc : Option (List Char)}
    (h1 : matchGroupby (pstrip python_code.toList) = none)
    (h : matchSortValues (pstrip python_code.toList) = some (col, asc)) :
    python_to_sql python_code table_name =
      "SELECT * FROM " ++ table_name ++ " ORDER BY " ++ String.mk col ++ " " ++
        (if asc == some "False".toList then "DESC" else "ASC") ++ ";" := by
  have h1' : matchGroupby (pstrip python_code.data) = none := h1
  have h' : matchSortValues (pstrip python_code.data) = some (col, asc) := h
  simp [python_to_sql, h1', h']

theorem matchSortValues_groupby_none {cs : List Char}
    {x : List Char × Option (List Char)}
    (h : matchSortValues cs = some x) : matchGroupby cs = none := by
  simp only [matchSortValues, Option.bind_eq_some] at h
  obtain ⟨r1, h1, -⟩ := h
  rw [lit_sound _ _ _ h1]
  rfl

theorem quote_not_paren {q : Char} (hq : q = '\'' ∨ q = '"') :
    isParenChar q = false := by
  rcases hq with rfl | rfl <;> decide

theorem wordChar_not_paren {c : Char} (h : isWordChar c = true) :
    isParenChar c = false := by
  by_cases h1 : c = '('
  · subst h1; exact absurd h (by decide)
  by_cases h2 : c = ')'
  · subst h2; exact absurd h (by decide)
  simp [isParenChar, h1, h2]

theorem filter_paren_word {w : List Char} (hw : ∀ c ∈ w, isWordChar c = true) :
    w.filter isParenChar = [] := by
  induction w with
  | nil => rfl
  | cons a t ih =>
    rw [List.filter_cons, wordChar_not_paren (hw a (by simp))]
    simp only [Bool.false_eq_true, if_false]
    exact ih fun c hc => hw c (by simp [hc])

theorem subSeriesRefsFuel_parens :
    ∀ fuel cs, cs.length ≤ fuel →
      (subSeriesRefsFuel fuel cs).filter isParenChar = cs.filter isParenChar := by
  intro fuel
  induction fuel with
  | zero =>
    intro cs h
    cases cs with
    | nil => rfl
    | cons c rest => simp at h
  | succ n ih =>
    intro cs h
    cases cs with
    | nil => rfl
    | cons c rest =>
      cases htr : trySeriesRef (c :: rest) with
      | some p =>
        obtain ⟨w, r⟩ := p
        obtain ⟨q1, q2, hq1, hq2, -, hwc, hdec⟩ := trySeriesRef_sound htr
        have hlen : r.length ≤ n := by
          have h2 := trySeriesRef_length htr
          dsimp only at h2
          simp only [List.length_cons] at h2 h
          omega
        simp only [subSeriesRefsFuel, htr]
        rw [List.filter_append, filter_paren_word hwc, ih r hlen, hdec,
          List.filter_append, show (("df[".toList : List Char).filter isParenChar) = []
            from by decide, List.filter_cons, quote_not_paren hq1]
        simp only [Bool.false_eq_true, if_false, List.nil_append]
        rw [List.filter_append, filter_paren_word hwc, List.filter_cons,
          quote_not_paren hq2]
        simp only [Bool.false_eq_true, if_false, List.nil_append]
        rw [List.filter_cons, show isParenChar ']' = false from by decide]
        simp
      | none =>
        have hlen : rest.length ≤ n := by
          simp only [List.length_cons] at h
          omega
        simp only [subSeriesRefsFuel, htr]
        simp only [List.filter_cons, ih rest hlen]

theorem subSeriesRefs_parens (cs : List Char) :
    (subSeriesRefs cs).filter isParenChar = cs.filter isParenChar :=
  subSeriesRefsFuel_parens cs.length cs le_rfl

theorem replaceSubFuel_filter {pat rep : List Char}
    (hpat : pat.filter isParenChar = []) (hrep : rep.filter isParenChar = []) :
    ∀ fuel cs, cs.length ≤ fuel →
      (replaceSubFuel pat rep fuel cs).filter isParenChar = cs.filter isParenChar := by
  intro fuel
  induction fuel with
  | zero =>
    intro cs h
    cases cs with
    | nil => rfl
    | cons c t => simp at h
  | succ n ih =>
    intro cs h
    cases cs with
    | nil => rfl
    | cons c cs' =>
      have hlen' : cs'.length ≤ n := by
        simp only [List.length_cons] at h
        omega
      by_cases hp : pat.isEmpty = true
      · simp only [replaceSubFuel, if_pos hp]
        simp only [List.filter_cons, ih cs' hlen']
      · cases hlit : lit pat (c :: cs') with
        | some r =>
          have hpne : pat ≠ [] := by
            cases pat with
            | nil => simp at hp
            | cons x xs => simp
          have hrlen : r.length ≤ n := by
            have h2 := lit_rest_length hpne hlit
            simp only [List.length_cons] at h2 h
            omega
          simp only [replaceSubFuel, if_neg hp, hlit]
          rw [List.filter_append, hrep, List.nil_append, ih r hrlen,
            lit_sound _ _ _ hlit, List.filter_append, hpat, List.nil_append]
        | none =>
          simp only [replaceSubFuel, if_neg hp, hlit]
          simp only [List.filter_cons, ih cs' hlen']

theorem replaceSub_parens {pat rep : List Char} (cs : List Char)
    (hpat : pat.filter isParenChar = []) (hrep : rep.filter isParenChar = []) :
    (replaceSub pat rep cs).filter isParenChar = cs.filter isParenChar :=
  replaceSubFuel_filter hpat hrep cs.length cs le_rfl

theorem wordPlus_spaces_append {cs w r extra : List Char}
    (h : wordPlus (spacesDrop cs) = some (w, r)) (hr : r ≠ []) :
    wordPlus (spacesDrop (cs ++ extra)) = some (w, r ++ extra) := by
  obtain ⟨hdec, hw, -, -, -⟩ := wordPlus_sound h
  cases hsd : spacesDrop cs with
  | nil =>
    rw [hsd] at hdec
    cases w with
    | nil => exact absurd rfl hw
    | cons x xs => simp at hdec
  | cons d t =>
    have h2 := spacesDrop_append_cons extra hsd
    rw [h2, show d :: (t ++ extra) = (d :: t) ++ extra from rfl, ← hsd]
    exact wordPlus_append h hr

theorem matchGroupby_append {cs extra : List Char}
    {caps : List Char × List Char × List Char}
    (h : matchGroupby cs = some caps) :
    matchGroupby (cs ++ extra) = some caps := by
  simp only [matchGroupby, Option.bind_eq_some] at h
  obtain ⟨r1, h1, h⟩ := h
  obtain ⟨r2, h2, h⟩ := h
  obtain ⟨⟨gcol, r3⟩, h3, h⟩ := h
  dsimp only at h
  obtain ⟨r4, h4, h⟩ := h
  obtain ⟨r5, h5, h⟩ := h
  obtain ⟨r6, h6, h⟩ := h
  obtain ⟨r7, h7, h⟩ := h
  obtain ⟨⟨tcol, r8⟩, h8, h⟩ := h
  dsimp only at h
  obtain ⟨r9, h9, h⟩ := h
  obtain ⟨r10, h10, h⟩ := h
  obtain ⟨r11, h11, h⟩ := h
  obtain ⟨⟨func, r12⟩, h12, h⟩ := h
  dsimp only at h
  obtain ⟨r13, h13, h⟩ := h
  obtain ⟨r14, h14, h⟩ := h
  have hr3 : r3 ≠ [] := by
    obtain ⟨q, hq, -⟩ := quoteM_sound h4
    rw [hq]; simp
  have hr8 : r8 ≠ [] := by
    obtain ⟨q, hq, -⟩ := quoteM_sound h9
    rw [hq]; simp
  have hr12 : r12 ≠ [] := by
    intro he
    subst he
    have := expectChar_sound h13
    simp [spacesDrop, List.dropWhile] at this
  simp only [matchGroupby, Option.bind_eq_some]
  refine ⟨r1 ++ extra, lit_append _ _ _ _ h1,
    r2 ++ extra, quoteM_spaces_append h2,
    (gcol, r3 ++ extra), wordPlus_append h3 hr3, ?_⟩
  dsimp only
  refine ⟨r4 ++ extra, quoteM_append h4,
    r5 ++ extra, expectChar_spaces_append h5,
    r6 ++ extra, expectChar_spaces_append h6,
    r7 ++ extra, quoteM_spaces_append h7,
    (tcol, r8 ++ extra), wordPlus_append h8 hr8, ?_⟩
  dsimp only
  refine ⟨r9 ++ extra, quoteM_append h9,
    r10 ++ extra, expectChar_spaces_append h10,
    r11 ++ extra, expectChar_spaces_append h11,
    (func, r12 ++ extra), wordPlus_spaces_append h12 hr12, ?_⟩
  dsimp only
  exact ⟨r13 ++ extra, expectChar_spaces_append h13,
    r14 ++ extra, expectChar_spaces_append h14, h⟩

theorem sortAscTail_append {cs asc r extra : List Char}
    (h : sortAscTail cs = some (asc, r)) :
    sortAscTail (cs ++ extra) = some (asc, r ++ extra) := by
  simp only [sortAscTail, Option.bind_eq_some] at h
  obtain ⟨r1, h1, h⟩ := h
  obtain ⟨r2, h2, h⟩ := h
  obtain ⟨r3, h3, h⟩ := h
  simp only [sortAscTail, Option.bind_eq_some]
  refine ⟨r1 ++ extra, expectChar_spaces_append h1,
    r2 ++ extra, lit_spaces_append (by simp) h2,
    r3 ++ extra, expectChar_spaces_append h3, ?_⟩
  cases hT : lit "True".toList (spacesDrop r3) with
  | some r4 =>
    rw [hT] at h
    simp only [Option.some.injEq, Prod.mk.injEq] at h
    obtain ⟨rfl, rfl⟩ := h
    rw [lit_spaces_append (by simp) hT]
  | none =>
    rw [hT] at h
    cases hF : lit "False".toList (spacesDrop r3) with
    | some r4 =>
      rw [hF] at h
      simp only [Option.some.injEq, Prod.mk.injEq] at h
      obtain ⟨rfl, rfl⟩ := h
      have hdecF := lit_sound _ _ _ hF
      have hcons : spacesDrop r3 = 'F' :: ("alse".toList ++ r4) := by
        simpa using hdecF
      have hT' : lit "True".toList (spacesDrop (r3 ++ extra)) = none := by
        rw [spacesDrop_append_cons extra hcons]
        rfl
      have hF' : lit "False".toList (spacesDrop (r3 ++ extra)) = some (r4 ++ extra) :=
        lit_spaces_append (by simp) hF
      rw [hT', hF']
    | none =>
      rw [hF] at h
      simp at h

theorem matchSortValues_append {cs extra : List Char}
    {caps : List Char × Option (List Char)}
    (h : matchSortValues cs = some caps) :
    matchSortValues (cs ++ extra) = some caps := by
  simp only [matchSortValues, Option.bind_eq_some] at h
  obtain ⟨r1, h1, h⟩ := h
  obtain ⟨r2, h2, h⟩ := h
  obtain ⟨⟨col, r3⟩, h3, h⟩ := h
  dsimp only at h
  obtain ⟨r4, h4, h⟩ := h
  have hr3 : r3 ≠ [] := by
    obtain ⟨q, hq, -⟩ := quoteM_sound h4
    rw [hq]; simp
  simp only [matchSortValues, Option.bind_eq_some]
  refine ⟨r1 ++ extra, lit_append _ _ _ _ h1,
    r2 ++ extra, quoteM_spaces_append h2,
    (col, r3 ++ extra), wordPlus_append h3 hr3, ?_⟩
  dsimp only
  refine ⟨r4 ++ extra, quoteM_append h4, ?_⟩
  cases hs : sortAscTail r4 with
  | some p =>
    obtain ⟨asc, r5⟩ := p
    rw [hs] at h
    dsimp only at h
    cases he : expectChar ')' (spacesDrop r5) with
    | some r6 =>
      rw [he] at h
      dsimp only at h
      rw [sortAscTail_append hs]
      dsimp only
      rw [expectChar_spaces_append he]
      exact h
    | none =>
      rw [he] at h
      dsimp only at h
      cases he2 : expectChar ')' (spacesDrop r4) with
      | some r6 =>
        exfalso
        simp only [sortAscTail, Option.bind_eq_some] at hs
        obtain ⟨m1, hm1, -⟩ := hs
        have hc := expectChar_sound hm1
        have hp := expectChar_sound he2
        rw [hc] at hp
        exact absurd (List.cons.inj hp).1 (by decide)
      | none =>
        rw [he2] at h
        simp at h
  | none =>
    rw [hs] at h
    dsimp only at h
    cases he2 : expectChar ')' (spacesDrop r4) with
    | some r6 =>
      rw [he2] at h
      dsimp only at h
      have h2e := expectChar_sound he2
      have hsd := spacesDrop_append_cons extra h2e
      have hAsc : sortAscTail (r4 ++ extra) = none := by
        simp [sortAscTail, hsd, expectChar]
      rw [hAsc]
      dsimp only
      rw [expectChar_spaces_append he2]
      exact h
    | none =>
      rw [he2] at h
      simp at h

/-- Spec-side rendering of the quote-stripping condition in the amended
claim C9: after stripping, the token both starts and ends with a single
quote, or both starts and ends with a double quote (a length-one quote
satisfies both ends at once). -/
def strippedWrapped (t : List Char) : Bool :=
  (t.head? == some '\'' && t.getLast? == some '\'')
    || (t.head? == some '"' && t.getLast? == some '"')

/-- Spec-side rendering of the amended claim C9: strip surrounding
whitespace first; if the stripped token is quote-wrapped, drop its first
and last character, otherwise return the stripped token. -/
def cleanQuotesSpec (s : String) : String :=
  let t := pstrip s.toList
  if strippedWrapped t then String.mk ((t.drop 1).dropLast) else String.mk t

/-- Claim C1: the spec states `python_to_sql "df['age']"` (default table)
returns `SELECT age FROM employees;`.  The code does recognize the
plain-column shape (recognizer 6 matches, first conjunct), but recognizer
4 (`df\[(.+)\]\s*$`) is tried earlier and also matches, capturing `'age'`
as a WHERE condition, so the actual output is
`SELECT * FROM employees WHERE 'age';` — contradicting the module
docstring `column access: df['col'] -> SELECT col FROM table;`. -/
theorem C1_plain_select_shadowed :
    matchColSelect (pstrip "df['age']".toList) = some "age".toList ∧
    python_to_sql "df['age']" = "SELECT * FROM employees WHERE 'age';" ∧
    ("SELECT * FROM employees WHERE 'age';" : String) ≠ "SELECT age FROM employees;" := by
  refine ⟨by decide, by decide, by decide⟩

/-- Claim C2: `python_to_sql` is total (a Lean function, never raising),
and whenever none of the six recognizers matches the stripped input it
returns exactly the sentinel error string, for every input and table
name. -/
theorem C2_unrecognized_sentinel (python_code table_name : String)
    (h1 : matchGroupby (pstrip python_code.toList) = none)
    (h2 : matchSortValues (pstrip python_code.toList) = none)
    (h3 : matchFilterAgg (pstrip python_code.toList) = none)
    (h4 : matchFilter (pstrip python_code.toList) = none)
    (h5 : matchColAgg (pstrip python_code.toList) = none)
    (h6 : matchColSelect (pstrip python_code.toList) = none) :
    python_to_sql python_code table_name =
      "ERROR: Unsupported or unrecognized Python pattern. Please try a simpler expression." := by
  have g1 : matchGroupby (pstrip python_code.data) = none := h1
  have g2 : matchSortValues (pstrip python_code.data) = none := h2
  have g3 : matchFilterAgg (pstrip python_code.data) = none := h3
  have g4 : matchFilter (pstrip python_code.data) = none := h4
  have g5 : matchColAgg (pstrip python_code.data) = none := h5
  have g6 : matchColSelect (pstrip python_code.data) = none := h6
  simp [python_to_sql, g1, g2, g3, g4, g5, g6]

/-- Claim C2, witness: the unrecognized input `not_a_pattern(1,2,3)` from
the spec, on which all six recognizers fail. -/
theorem C2_unrecognized_sentinel_witness :
    python_to_sql "not_a_pattern(1,2,3)" "employees" =
      "ERROR: Unsupported or unrecognized Python pattern. Please try a simpler expression." :=
  C2_unrecognized_sentinel "not_a_pattern(1,2,3)" "employees"
    (by decide) (by decide) (by decide) (by decide) (by decide) (by decide)

/-- Claim C3: the spec's chained filter-plus-aggregate example. The
recognizer captures the condition up to the last `]` before the trailing
`['salary'].sum()` suffix (second conjunct), the normalizer rewrites it
(third conjunct), and the dispatcher produces the claimed SQL (first
conjunct). -/
theorem C3_chained_filter_aggregate :
    python_to_sql "df[(df['age'] > 30) & (df['city'] == 'Chennai')]['salary'].sum()" =
      "SELECT SUM(salary) FROM employees WHERE (age > 30) AND (city = 'Chennai');" ∧
    matchFilterAgg
        (pstrip "df[(df['age'] > 30) & (df['city'] == 'Chennai')]['salary'].sum()".toList) =
      some ("(df['age'] > 30) & (df['city'] == 'Chennai')".toList,
        "salary".toList, "sum".toList) ∧
    _replace_series_refs "(df['age'] > 30) & (df['city'] == 'Chennai')" =
      "(age > 30) AND (city = 'Chennai')" := by
  refine ⟨by decide, by decide, by decide⟩

/-- Claim C4: every input whose stripped form matches the group-by
aggregate shape `df.groupby('G')['C'].func()` (recognizer 1, with single
or double quotes) translates to
`SELECT G, FUNC(C) FROM table GROUP BY G;`, where FUNC is the alias-table
lookup with uppercase fallback. -/
theorem C4_groupby_shape (python_code table_name : String)
    (gcol tcol func : List Char)
    (h : matchGroupby (pstrip python_code.toList) = some (gcol, tcol, func)) :
    python_to_sql python_code table_name =
      "SELECT " ++ String.mk gcol ++ ", " ++ funcMapGet (String.mk func) ++ "(" ++
        String.mk tcol ++ ") FROM " ++ table_name ++ " GROUP BY " ++ String.mk gcol ++ ";" :=
  python_to_sql_groupby h

/-- Claim C4, witness: the spec's example
`df.groupby('dept')['salary'].sum()`. -/
theorem C4_groupby_shape_witness :
    python_to_sql "df.groupby('dept')['salary'].sum()" "employees" =
      "SELECT dept, SUM(salary) FROM employees GROUP BY dept;" := by
  have h := C4_groupby_shape "df.groupby('dept')['salary'].sum()" "employees"
    "dept".toList "salary".toList "sum".toList (by decide)
  exact h.trans (by decide)

/-- Claim C5: every input whose stripped form matches the sort shape
`df.sort_values('C')` with optional `, ascending=True/False` (recognizer
2) translates to `SELECT * FROM table ORDER BY C ASC;`, with `DESC` only
when the captured ascending argument is exactly `False`. -/
theorem C5_sort_shape (python_code table_name : String) (col : List Char)
    (asc : Option (List Char))
    (h : matchSortValues (pstrip python_code.toList) = some (col, asc)) :
    python_to_sql python_code table_name =
      "SELECT * FROM " ++ table_name ++ " ORDER BY " ++ String.mk col ++ " " ++
        (if asc == some "False".toList then "DESC" else "ASC") ++ ";" :=
  python_to_sql_sort (matchSortValues_groupby_none h) h

/-- Claim C5, witness: the spec's example
`df.sort_values('salary', ascending=False)`. -/
theorem C5_sort_shape_witness :
    python_to_sql "df.sort_values('salary', ascending=False)" "employees" =
      "SELECT * FROM employees ORDER BY salary DESC;" := by
  have h := C5_sort_shape "df.sort_values('salary', ascending=False)" "employees"
    "salary".toList (some "False".toList) (by decide)
  exact h.trans (by decide)

/-- Claim C6: the six known aggregate names map to their SQL equivalents,
every other function name is passed through uppercased rather than
treated as an error, and in particular `df['x'].std()` translates to
`SELECT STD(x) FROM employees;`. -/
theorem C6_func_map :
    (funcMapGet "mean" = "AVG" ∧ funcMapGet "sum" = "SUM" ∧
      funcMapGet "count" = "COUNT" ∧ funcMapGet "min" = "MIN" ∧
      funcMapGet "max" = "MAX" ∧ funcMapGet "median" = "MEDIAN") ∧
    (∀ func : String, func ≠ "mean" → func ≠ "sum" → func ≠ "count" →
      func ≠ "min" → func ≠ "max" → func ≠ "median" →
      funcMapGet func = pyUpper func) ∧
    python_to_sql "df['x'].std()" = "SELECT STD(x) FROM employees;" := by
  refine ⟨⟨by decide, by decide, by decide, by decide, by decide, by decide⟩, ?_, by decide⟩
  intro func hn1 hn2 hn3 hn4 hn5 hn6
  have hl : FUNC_MAP.lookup func = none := by
    have e1 : (func == "mean") = false := by simp [hn1]
    have e2 : (func == "sum") = false := by simp [hn2]
    have e3 : (func == "count") = false := by simp [hn3]
    have e4 : (func == "min") = false := by simp [hn4]
    have e5 : (func == "max") = false := by simp [hn5]
    have e6 : (func == "median") = false := by simp [hn6]
    simp [FUNC_MAP, List.lookup, e1, e2, e3, e4, e5, e6]
  simp [funcMapGet, hl]

/-- Claim C6, witness: the unknown name `std` falls through to the
uppercase passthrough. -/
theorem C6_func_map_witness :
    funcMapGet "std" = pyUpper "std" ∧ pyUpper "std" = "STD" :=
  ⟨C6_func_map.2.1 "std" (by decide) (by decide) (by decide) (by decide)
    (by decide) (by decide), by decide⟩

/-- Claim C7: the condition normalizer performs exactly the five rewrites
in the source's fixed order — series-reference substitution, `==` to `=`,
`&` to `AND`, `|` to `OR`, removal of remaining `df.` occurrences — and
passes parentheses through verbatim (the subsequence of parenthesis
characters is unchanged). -/
theorem C7_normalizer_steps (condition : String) :
    _replace_series_refs condition =
      String.mk (replaceSub "df.".toList "".toList
        (replaceSub "|".toList "OR".toList
          (replaceSub "&".toList "AND".toList
            (replaceSub "==".toList "=".toList
              (subSeriesRefs condition.toList))))) ∧
    (_replace_series_refs condition).toList.filter isParenChar =
      condition.toList.filter isParenChar := by
  constructor
  · rfl
  · show (replaceSub "df.".toList "".toList
        (replaceSub "|".toList "OR".toList
          (replaceSub "&".toList "AND".toList
            (replaceSub "==".toList "=".toList
              (subSeriesRefs condition.toList))))).filter isParenChar =
      condition.toList.filter isParenChar
    rw [replaceSub_parens _ (by decide) (by decide),
      replaceSub_parens _ (by decide) (by decide),
      replaceSub_parens _ (by decide) (by decide),
      replaceSub_parens _ (by decide) (by decide),
      subSeriesRefs_parens]

/-- Claim C8, counterexample: whitespace inside the plain selection
brackets is NOT tolerated — `df[ 'salary' ].mean()` falls through to the
sentinel error while `df['salary'].mean()` translates (first three
conjuncts), so the two are not translated to the same SQL; moreover a
mixed quote pair `df['age\x22].mean()` IS recognized (fourth conjunct),
contradicting the claim's list of unrecognized variations. -/
theorem C8_whitespace_counterexample :
    python_to_sql "df[ 'salary' ].mean()" =
      "ERROR: Unsupported or unrecognized Python pattern. Please try a simpler expression." ∧
    python_to_sql "df['salary'].mean()" = "SELECT AVG(salary) FROM employees;" ∧
    ("ERROR: Unsupported or unrecognized Python pattern. Please try a simpler expression." : String) ≠
      "SELECT AVG(salary) FROM employees;" ∧
    python_to_sql "df['age\"].mean()" = "SELECT AVG(age) FROM employees;" := by
  refine ⟨by decide, by decide, by decide, by decide⟩

/-- Claim C8 as amended: whitespace is tolerated exactly where the
templates contain `\s*` — inside the `groupby(...)`/`sort_values(...)`
parentheses and the groupby selection brackets, and around the `.func()`
suffix — but not inside the plain `['C']` selection brackets of
recognizers 5 and 6; and the opening and closing quote of one literal are
matched independently, so a mixed pair is accepted. -/
theorem C8_whitespace_positions :
    python_to_sql "df['salary'] . mean ( )" = "SELECT AVG(salary) FROM employees;" ∧
    python_to_sql "df.groupby( 'dept' )[ 'salary' ] . sum ( )" =
      "SELECT dept, SUM(salary) FROM employees GROUP BY dept;" ∧
    python_to_sql "df.sort_values( 'salary' , ascending = False )" =
      "SELECT * FROM employees ORDER BY salary DESC;" ∧
    python_to_sql "df[ 'salary' ].mean()" =
      "ERROR: Unsupported or unrecognized Python pattern. Please try a simpler expression." ∧
    python_to_sql "df['age\"].mean()" = "SELECT AVG(age) FROM employees;" := by
  refine ⟨by decide, by decide, by decide, by decide, by decide⟩

/-- Claim C9, counterexample: `_clean_quotes` strips surrounding
whitespace before (and regardless of) unquoting, so the unquoted input
`" x "` is not returned unchanged; and a single lone quote is hollowed
out to the empty string even though it is not a wrapped pair. -/
theorem C9_strip_counterexample :
    _clean_quotes " x " = "x" ∧ (" x " : String) ≠ "x" ∧ _clean_quotes "'" = "" := by
  refine ⟨by decide, by decide, by decide⟩

/-- Claim C9 as amended: `_clean_quotes` first strips surrounding
whitespace; then, when the stripped token both starts and ends with `'`
or both starts and ends with `\x22` (a length-one quote counts as both),
it removes the first and last character, and otherwise returns the
stripped token. -/
theorem C9_clean_quotes_amended (s : String) : _clean_quotes s = cleanQuotesSpec s := rfl

/-- Claim C10, counterexample: the trimmed prefix `df['s'].mean()` of the
input `df['s'].mean()]` matches recognizer 5 (first conjunct), yet the
trailing `]` is not ignored: the earlier recognizer 4 matches the whole
input and wins, so the output is not the translation of the prefix
(second and third conjuncts). -/
theorem C10_trailing_counterexample :
    matchColAgg "df['s'].mean()]".toList = some ("s".toList, "mean".toList) ∧
    python_to_sql "df['s'].mean()]" = "SELECT * FROM employees WHERE 's'].mean();" ∧
    ("SELECT * FROM employees WHERE 's'].mean();" : String) ≠
      "SELECT AVG(s) FROM employees;" := by
  refine ⟨by decide, by decide, by decide⟩

/-- Claim C10 as amended: recognizers 1, 2, 3 and 5 have no end anchor.
For recognizers 1 and 2 — the first two tried — arbitrary text appended
after a successful match is ignored and the captures (hence the
translation) are unchanged (first two conjuncts, with dispatch examples
in conjuncts three and four); recognizer 3 likewise ignores text after
its match (fifth conjunct); but for a prefix matching recognizer 5,
trailing text can instead be captured by the earlier recognizers 3 or 4,
changing the output, so the prefix translation is not always returned.
Recognizers 4 and 6 do anchor at end-of-string (sixth conjunct). -/
theorem C10_anchoring_amended :
    (∀ (cs extra : List Char) (caps : List Char × List Char × List Char),
      matchGroupby cs = some caps → matchGroupby (cs ++ extra) = some caps) ∧
    (∀ (cs extra : List Char) (caps : List Char × Option (List Char)),
      matchSortValues cs = some caps → matchSortValues (cs ++ extra) = some caps) ∧
    python_to_sql "df.groupby('dept')['salary'].sum()!!" =
      "SELECT dept, SUM(salary) FROM employees GROUP BY dept;" ∧
    python_to_sql "df.sort_values('salary')!!" =
      "SELECT * FROM employees ORDER BY salary ASC;" ∧
    python_to_sql "df[age>30]['salary'].sum() trailing" =
      "SELECT SUM(salary) FROM employees WHERE age>30;" ∧
    python_to_sql "df['age'] x" =
      "ERROR: Unsupported or unrecognized Python pattern. Please try a simpler expression." := by
  refine ⟨fun cs extra caps h => matchGroupby_append h,
    fun cs extra caps h => matchSortValues_append h,
    by decide, by decide, by decide, by decide⟩

/-- Claim C10, witness: the appended-text property of recognizer 1
instantiated at a concrete match with concrete trailing text. -/
theorem C10_anchoring_amended_witness :
    matchGroupby ("df.groupby('a')['b'].sum()".toList ++ "]]".toList) =
      some ("a".toList, "b".toList, "sum".toList) :=
  C10_anchoring_amended.1 "df.groupby('a')['b'].sum()".toList "]]".toList
    ("a".toList, "b".toList, "sum".toList) (by decide)
